import Mathlib

/-!
Verification of the flowershow cloudflare worker (queue consumer variant with
PROCESSING/SUCCESS/ERROR state machine, publish-suppression branch and
best-effort search indexing).

The development shallowly embeds the worker's message handler and processing
pipeline (handleMessage / processFile / getBlobId / indexInTypesense), the
key-decoding regex of handleMessage, and the markdown metadata extractor
(parseMarkdownFile / extractTitle / extractDescription) as executable Lean
functions over an explicit world state (catalog rows, storage objects, search
index, acknowledgement flag and an event trace).  External collaborators
(network, database and index availability, the third-party markdown stripper)
are modeled as explicit parameters or failure-injection flags of an
environment record, mirroring the try/catch structure of the source.
-/

namespace Flowershow

/-! ## Definitions: the embedded worker, parser and data model -/

/-- Line terminators: the characters a JavaScript regex dot does not match
(and which multiline anchors treat as line breaks). -/
def isLineTerm (c : Char) : Bool :=
  c = '\n' || c = '\r' || c = '\u2028' || c = '\u2029'

/-- JavaScript word character or hyphen, the charset of the identifier
check regex on siteId and branch. -/
def isWordHyphen (c : Char) : Bool :=
  c.isAlphanum || c = '_' || c = '-'

/-- JavaScript whitespace class. -/
def isJsWs (c : Char) : Bool :=
  c = ' ' || c = '\t' || c = '\n' || c = '\r' || c = '\x0b' || c = '\x0c' ||
  c = '\u00a0' || c = '\ufeff' || c = '\u1680' ||
  ('\u2000' ≤ c && c ≤ '\u200a') ||
  c = '\u2028' || c = '\u2029' || c = '\u202f' || c = '\u205f' || c = '\u3000'

/-- Splits a character list at the first slash; fails when there is none.
This is the deterministic behaviour of a greedy run of non-slash characters
followed by a literal slash. -/
def splitSlash : List Char → Option (List Char × List Char)
  | [] => none
  | c :: rest =>
    if c = '/' then some ([], rest)
    else
      match splitSlash rest with
      | some (seg, r) => some (c :: seg, r)
      | none => none

/-- The anchored match of a raw key against the key shape regex, returning
the three capture groups.  The final group is one or more characters none of
which is a line terminator (the semantics of the dot in a JavaScript regex
without flags, anchored by a strict end-of-input dollar). -/
def matchKeyChars (l : List Char) : Option (List Char × List Char × List Char) :=
  match splitSlash l with
  | none => none
  | some (a, r1) =>
    if a = [] then none
    else
      match splitSlash r1 with
      | none => none
      | some (b, r2) =>
        if b = [] then none
        else
          match r2 with
          | 'r' :: 'a' :: 'w' :: '/' :: c =>
            if c = [] then none
            else if c.any isLineTerm then none
            else some (a, b, c)
          | _ => none

/-- The two failure modes of key decoding. -/
inductive KeyError
  | invalidKeyFormat (raw : String)
  | invalidIdentifier (siteId branch : String)
deriving DecidableEq, Repr

/-- The identifier validation regex on a character list: one or more word
characters or hyphens spanning the whole input. -/
def isIdentChars (l : List Char) : Bool :=
  !l.isEmpty && l.all isWordHyphen

/-- The identifier validation regex on a string. -/
def isIdentStr (s : String) : Bool :=
  isIdentChars s.data

/-- Key decoding as performed at the top of handleMessage: match against
the key shape regex (throwing the invalid-key-format error on failure),
then validate siteId and branch against the identifier regex (throwing the
invalid-identifier error on failure). -/
def decodeKey (raw : String) : Except KeyError (String × String × String) :=
  match matchKeyChars raw.data with
  | none => .error (.invalidKeyFormat raw)
  | some (a, b, c) =>
    if isIdentChars a && isIdentChars b then .ok (⟨a⟩, ⟨b⟩, ⟨c⟩)
    else .error (.invalidIdentifier ⟨a⟩ ⟨b⟩)

/-- The per-document synchronisation status column. -/
inductive SyncStatus
  | PENDING
  | PROCESSING
  | SUCCESS
  | ERROR
deriving DecidableEq, Repr

/-- The metadata bag extracted from a markdown file, restricted to the
fields the pipeline reads (publish, permalink, title, description, authors,
date) plus a pass-through association list for the remaining frontmatter
fields. -/
structure Metadata where
  title : String
  description : String
  publish : Option Bool
  permalink : Option String
  authors : Option (List String)
  date : Option String
  extra : List (String × String)
deriving DecidableEq, Repr

/-- A catalog row of the Blob table, restricted to the columns the worker
reads or writes. -/
structure Blob where
  id : String
  siteId : String
  path : String
  createdAt : Nat
  metadata : Metadata
  permalink : Option String
  syncStatus : SyncStatus
  syncError : Option String
deriving DecidableEq, Repr

/-- A stored object: the size reported by the storage backend and the body
text, kept separate because the size check happens before the body is
materialized. -/
structure StorObj where
  size : Nat
  text : String
deriving DecidableEq, Repr

/-- The search document built by indexInTypesense. -/
structure SearchDoc where
  title : String
  content : String
  path : String
  description : String
  authors : Option (List String)
  date : Option Int
  id : String
deriving DecidableEq, Repr

/-- Observable side effects of one run, recorded in order. -/
inductive Event
  | setStatus (id : String) (st : SyncStatus)
  | fetch (key : String)
  | readBody (key : String)
  | parsed (path : String)
  | deleteObject (key : String)
  | deleteRow (id : String)
  | indexUpsert (collection id : String)
  | indexDelete (collection id : String)
deriving DecidableEq, Repr

/-- The state acted upon by one message: catalog rows, storage objects
(keyed by the full object key), the search index (keyed by collection and
document id), the acknowledgement flag of the message, and the trace. -/
structure World where
  blobs : List Blob
  objects : List (String × StorObj)
  search : List ((String × String) × SearchDoc)
  acked : Bool
  trace : List Event
deriving DecidableEq, Repr

/-- Which storage backend the deployment selected (dev uses the
S3-compatible client, production the native bucket binding). -/
inductive StorageType
  | s3
  | r2
deriving DecidableEq, Repr

/-- The environment of a run: the deployment mode, the markdown parser (a
pure function, abstracting the parser module), the date parser used when
building the search document (abstracting the JavaScript Date constructor),
and failure-injection flags for the external collaborators, mirroring which
failures the source wraps in try/catch. -/
structure Env where
  stype : StorageType
  parse : String → String → Except String (Metadata × String)
  parseDate : String → Int
  fetchFails : Option String
  dbFails : Bool
  storageDeleteFails : Bool
  indexUpsertFails : Bool
  indexDeleteFails : Bool

/-- Picks the row with the greatest creation time (the descending
creation-time ordering with a single-row limit), keeping the earlier row on
ties. -/
def pickLatest : List Blob → Option Blob
  | [] => none
  | b :: rest =>
    match pickLatest rest with
    | none => some b
    | some c => if c.createdAt > b.createdAt then some c else some b

/-- The row selection of getBlobId: latest row of the Blob table matching
the site id and path. -/
def findLatestBlob (blobs : List Blob) (siteId path : String) : Option Blob :=
  pickLatest (blobs.filter fun b => b.siteId = siteId && b.path = path)

/-- An UPDATE of the rows whose id matches. -/
def updateBlobs (blobs : List Blob) (id : String) (f : Blob → Blob) : List Blob :=
  blobs.map fun b => if b.id = id then f b else b

/-- Object lookup in the storage backend. -/
def lookupObject (objects : List (String × StorObj)) (key : String) : Option StorObj :=
  List.lookup key objects

/-- Search index lookup by collection and document id. -/
def searchLookup (search : List ((String × String) × SearchDoc))
    (collection id : String) : Option SearchDoc :=
  List.lookup (collection, id) search

/-- Search index upsert: replaces any entry under the same key. -/
def upsertSearch (search : List ((String × String) × SearchDoc))
    (k : String × String) (d : SearchDoc) : List ((String × String) × SearchDoc) :=
  (k, d) :: search.filter fun e => e.1 ≠ k

/-- Search index removal. -/
def removeSearch (search : List ((String × String) × SearchDoc))
    (k : String × String) : List ((String × String) × SearchDoc) :=
  search.filter fun e => e.1 ≠ k

/-- The maximum file size enforced before reading a body (5 MB). -/
def MAX_FILE_BYTES : Nat := 5 * 1024 * 1024

/-- The object key rebuilt inside processFile. -/
def mkKey (siteId branch path : String) : String :=
  siteId ++ "/" ++ branch ++ "/raw/" ++ path

/-- ASCII lowering, the effect of the case-insensitive regex flag on the
letters of the markdown suffix pattern. -/
def lowerChar (c : Char) : Char :=
  if 'A' ≤ c && c ≤ 'Z' then Char.ofNat (c.toNat + 32) else c

/-- The markdown suffix test of handleMessage: the case-insensitive
markdown or MDX extension regex. -/
def isMarkdownPath (p : String) : Bool :=
  List.isSuffixOf ".md".data (p.data.map lowerChar)
    || List.isSuffixOf ".mdx".data (p.data.map lowerChar)

/-- Substring containment, the semantics of the includes test. -/
def containsSeg (pat : List Char) : List Char → Bool
  | [] => pat.isEmpty
  | c :: rest => List.isPrefixOf pat (c :: rest) || containsSeg pat rest

/-- The reserved-directory test of handleMessage. -/
def hasFlowershow (p : String) : Bool :=
  containsSeg "_flowershow/".data p.data

/-- Strips leading and trailing slash runs from a permalink. -/
def stripSlashes (s : String) : String :=
  ⟨((s.data.dropWhile fun c => c = '/').reverse.dropWhile fun c => c = '/').reverse⟩

/-- Permalink normalization before the success UPDATE; the source keeps
a null permalink (or any falsy one, hence also the empty string) as null. -/
def normalizePermalink : Option String → Option String
  | none => none
  | some p => if p = "" then none else some (stripSlashes p)

/-- The error message of a fetch of a missing object.  The native bucket
binding returns null and the source throws its own object-not-found message;
the S3 client raises the not-found failure of the storage provider, modelled
from the spec as an opaque object-not-found message (ContentStore: fetch on
a missing object fails with ObjectNotFound). -/
def missingObjectMsg (t : StorageType) (key : String) : String :=
  match t with
  | .s3 => "NoSuchKey"
  | .r2 => "Object not found: " ++ key

/-- Appends an event to the trace. -/
def addTrace (w : World) (e : Event) : World :=
  { w with trace := w.trace ++ [e] }

/-- getBlobId: the latest Blob row id for the site and path; throws when
no row matches (or when the database is unavailable). -/
def getBlobId (env : Env) (w : World) (siteId path : String) : Except String String :=
  if env.dbFails then .error "db failure"
  else
    match findLatestBlob w.blobs siteId path with
    | none => .error ("No blob found for path: " ++ path)
    | some b => .ok b.id

/-- An UPDATE statement against the Blob table, recording the status
write in the trace. -/
def sqlUpdateBlob (env : Env) (w : World) (id : String) (f : Blob → Blob)
    (ev : Event) : Except String Unit × World :=
  if env.dbFails then (.error "db failure", w)
  else (.ok (), { w with blobs := updateBlobs w.blobs id f, trace := w.trace ++ [ev] })

/-- The DELETE statement of the publish-suppression branch. -/
def sqlDeleteBlob (env : Env) (w : World) (id : String) : Except String Unit × World :=
  if env.dbFails then (.error "db failure", w)
  else (.ok (), { w with blobs := w.blobs.filter fun b => b.id ≠ id,
                         trace := w.trace ++ [Event.deleteRow id] })

/-- Content retrieval inside processFile: issue the get against the
selected backend, compare the reported size against the ceiling, and only
then materialize the body.  Both backends share the shape; they differ in
the failure raised for a missing object. -/
def fetchContent (env : Env) (w : World) (key : String) : Except String String × World :=
  let w1 := addTrace w (.fetch key)
  match env.fetchFails with
  | some msg => (.error msg, w1)
  | none =>
    match lookupObject w.objects key with
    | none => (.error (missingObjectMsg env.stype key), w1)
    | some obj =>
      if obj.size > MAX_FILE_BYTES then
        (.error ("File too large: " ++ toString obj.size), w1)
      else
        (.ok obj.text, addTrace w1 (.readBody key))

/-- The search document built by indexInTypesense; a falsy date field
(absent or empty) yields a null date, otherwise seconds since epoch of the
parsed date. -/
def buildSearchDoc (env : Env) (blobId path body : String) (m : Metadata) : SearchDoc :=
  { title := m.title
    content := body
    path := path
    description := m.description
    authors := m.authors
    date := match m.date with
            | none => none
            | some d => if d = "" then none else some (env.parseDate d)
    id := blobId }

/-- indexInTypesense: best-effort upsert of the search document; any
index failure is caught and logged, leaving the world unchanged. -/
def indexInTypesense (env : Env) (w : World) (siteId blobId path body : String)
    (m : Metadata) : World :=
  if env.indexUpsertFails then w
  else { w with search := upsertSearch w.search (siteId, blobId) (buildSearchDoc env blobId path body m),
                trace := w.trace ++ [Event.indexUpsert siteId blobId] }

/-- The body of the try block of processFile: fetch the content, parse
it, then either run the publish-suppression removal (best-effort storage
delete, row delete, best-effort index delete) or persist metadata and
normalized permalink with a SUCCESS status and upsert the search
document. -/
def tryProcess (env : Env) (w : World) (blobId key siteId path : String) :
    Except String Unit × World :=
  match fetchContent env w key with
  | (.error e, w1) => (.error e, w1)
  | (.ok markdown, w1) =>
    let w2 := addTrace w1 (.parsed path)
    match env.parse markdown path with
    | .error e => (.error e, w2)
    | .ok (metadata, body) =>
      if metadata.publish = some false then
        let w3 := if env.storageDeleteFails then w2
                  else { w2 with objects := w2.objects.filter fun o => o.1 ≠ key,
                                 trace := w2.trace ++ [Event.deleteObject key] }
        match sqlDeleteBlob env w3 blobId with
        | (.error e, w4) => (.error e, w4)
        | (.ok _, w4) =>
          let w5 := if env.indexDeleteFails then w4
                    else { w4 with search := removeSearch w4.search (siteId, blobId),
                                   trace := w4.trace ++ [Event.indexDelete siteId blobId] }
          (.ok (), w5)
      else
        let permalink := normalizePermalink metadata.permalink
        match sqlUpdateBlob env w2 blobId
            (fun b => { b with metadata := metadata, permalink := permalink,
                               syncStatus := .SUCCESS, syncError := none })
            (.setStatus blobId .SUCCESS) with
        | (.error e, w3) => (.error e, w3)
        | (.ok _, w3) => (.ok (), indexInTypesense env w3 siteId blobId path body metadata)

/-- processFile: resolve the blob id, claim the document by transitioning
it to PROCESSING, then run the try block; any failure inside the try block
transitions the document to ERROR with the failure message and is
re-raised. -/
def processFile (env : Env) (w : World) (siteId branch path : String) :
    Except String Unit × World :=
  match getBlobId env w siteId path with
  | .error e => (.error e, w)
  | .ok blobId =>
    match sqlUpdateBlob env w blobId (fun b => { b with syncStatus := .PROCESSING })
        (.setStatus blobId .PROCESSING) with
    | (.error e, w1) => (.error e, w1)
    | (.ok _, w1) =>
      let key := mkKey siteId branch path
      match tryProcess env w1 blobId key siteId path with
      | (.ok _, w2) => (.ok (), w2)
      | (.error e, w2) =>
        match sqlUpdateBlob env w2 blobId
            (fun b => { b with syncStatus := .ERROR, syncError := some e })
            (.setStatus blobId .ERROR) with
        | (.error e2, w3) => (.error e2, w3)
        | (.ok _, w3) => (.error e, w3)

/-- handleMessage: decode the key; for a non-markdown path mark the
latest matching row SUCCESS inside a try/catch whose failure is only
logged, and acknowledge; skip (with acknowledgement) paths inside the
reserved directory; otherwise run processFile and acknowledge only on
success.  A decoding or processing failure leaves the message
unacknowledged. -/
def handleMessage (env : Env) (w : World) (rawKey : String) : World :=
  match decodeKey rawKey with
  | .error _ => w
  | .ok (siteId, branch, path) =>
    if !isMarkdownPath path then
      let w1 :=
        match getBlobId env w siteId path with
        | .error _ => w
        | .ok blobId =>
          match sqlUpdateBlob env w blobId
              (fun b => { b with syncStatus := .SUCCESS, syncError := none })
              (.setStatus blobId .SUCCESS) with
          | (.error _, wu) => wu
          | (.ok _, wu) => wu
      { w1 with acked := true }
    else if hasFlowershow path then
      { w with acked := true }
    else
      match processFile env w siteId branch path with
      | (.ok _, w2) => { w2 with acked := true }
      | (.error _, w2) => w2

/-- Splitting a character list on a separator character, the semantics of
the split call for a one-character separator. -/
def splitChar (sep : Char) : List Char → List (List Char)
  | [] => [[]]
  | c :: rest =>
    match splitChar sep rest with
    | [] => [[]]
    | h :: t => if c = sep then [] :: h :: t else (c :: h) :: t

/-- String split on a one-character separator. -/
def splitOnChar (sep : Char) (s : String) : List String :=
  (splitChar sep s.data).map fun l => ⟨l⟩

/-- JavaScript string trim on a character list. -/
def jsTrimList (l : List Char) : List Char :=
  ((l.dropWhile isJsWs).reverse.dropWhile isJsWs).reverse

/-- The characters after the next line terminator (the positions at which
a multiline caret resumes matching). -/
def nextLine : List Char → Option (List Char)
  | [] => none
  | c :: rest => if isLineTerm c then some rest else nextLine rest

/-- The capture of the heading regex at a match: the greedy whitespace
run after the hash is consumed (it may span line breaks), and the capture
extends to the end of that line. -/
def captureHeading (l : List Char) : List Char :=
  (l.dropWhile isJsWs).takeWhile fun c => !isLineTerm c

/-- First-match search of the multiline heading regex: at each line
start, a hash followed by at least one whitespace character matches and
yields the capture; otherwise the search moves to the next line. -/
def findHeadingFuel : Nat → List Char → Option (List Char)
  | 0, _ => none
  | fuel + 1, l =>
    match l with
    | '#' :: c :: rest =>
      if isJsWs c then some (captureHeading (c :: rest))
      else
        match nextLine ('#' :: c :: rest) with
        | some r => findHeadingFuel fuel r
        | none => none
    | l2 =>
      match nextLine l2 with
      | some r => findHeadingFuel fuel r
      | none => none

/-- Close of the first lazy wikilink body: the shortest run of characters
up to the first double closing bracket. -/
def wikiClose (acc : List Char) : List Char → Option (List Char × List Char)
  | ']' :: ']' :: rest => some (acc.reverse, rest)
  | c :: rest => wikiClose (c :: acc) rest
  | [] => none

/-- First-occurrence (non-global) replacement of a wikilink by its
body. -/
def wikiFirstGo : List Char → List Char
  | '[' :: '[' :: rest =>
    (match wikiClose [] rest with
     | some (txt, rest2) => txt ++ rest2
     | none => '[' :: wikiFirstGo ('[' :: rest))
  | c :: rest => c :: wikiFirstGo rest
  | [] => []

/-- Removal of the markdown formatting characters of the title cleanup
regex: underscore, asterisk, tilde, backquote and greater-than. -/
def stripMdChars (l : List Char) : List Char :=
  l.filter fun c =>
    !(c = '_' || c = '*' || c = '~' || c = Char.ofNat 96 || c = '>')

/-- Lazy search for the closing parenthesis of an inline link target on
the same line. -/
def urlTail : List Char → Option (List Char)
  | [] => none
  | c :: rest =>
    if c = ')' then some rest
    else if isLineTerm c then none
    else urlTail rest

/-- Backtracking completion of an inline link after its opening bracket:
the lazy link text grows until a closing bracket directly followed by a
parenthesised target completes on the same line. -/
def linkTail (acc : List Char) : List Char → Option (List Char × List Char)
  | [] => none
  | c :: rest =>
    if isLineTerm c then none
    else if c = ']' then
      match rest with
      | '(' :: rest2 =>
        (match urlTail rest2 with
         | some rest3 => some (acc.reverse, rest3)
         | none => linkTail (c :: acc) rest)
      | _ => linkTail (c :: acc) rest
    else linkTail (c :: acc) rest

/-- Global replacement of inline links by their text. -/
def stripLinksGo : Nat → List Char → List Char
  | 0, l => l
  | _ + 1, [] => []
  | fuel + 1, c :: rest =>
    if c = '[' then
      match linkTail [] rest with
      | some (txt, rest2) => txt ++ stripLinksGo fuel rest2
      | none => c :: stripLinksGo fuel rest
    else c :: stripLinksGo fuel rest

/-- extractTitle: the first multiline heading match of the trimmed
source; an empty capture is falsy and yields nothing; otherwise the capture
is cleaned (first wikilink reduced to its body, formatting characters
removed, inline links reduced to their text) and trimmed. -/
def extractTitle (source : String) : Option String :=
  let t := jsTrimList source.data
  match findHeadingFuel (t.length + 1) t with
  | none => none
  | some cap =>
    if cap = [] then none
    else
      let s1 := wikiFirstGo cap
      let s2 := stripMdChars s1
      let s3 := stripLinksGo s2.length s2
      some ⟨jsTrimList s3⟩

/-- Index of the first triple-dash in a character list. -/
def idx3 : List Char → Option Nat
  | '-' :: '-' :: '-' :: _ => some 0
  | _ :: rest => (idx3 rest).map (· + 1)
  | [] => none

/-- Index of the last triple-dash in a character list. -/
def lastIdx3 : List Char → Option Nat
  | [] => none
  | c :: rest =>
    match lastIdx3 rest with
    | some i => some (i + 1)
    | none =>
      match c, rest with
      | '-', '-' :: '-' :: _ => some 0
      | _, _ => none

/-- The frontmatter removal regex of the description derivation: the
greedy global pattern of three dashes, anything, three dashes removes
everything from the first triple-dash through the last one. -/
def removeFM (l : List Char) : List Char :=
  match idx3 l, lastIdx3 l with
  | some p, some q => if p + 3 ≤ q then l.take p ++ l.drop (q + 3) else l
  | _, _ => l

/-- Index of the last comment-closing sequence in a character list. -/
def lastIdxClose : List Char → Option Nat
  | [] => none
  | c :: rest =>
    match lastIdxClose rest with
    | some i => some (i + 1)
    | none =>
      match c, rest with
      | '*', '/' :: '}' :: _ => some 0
      | _, _ => none

/-- Global removal of braced inline comments: at each comment opening,
the greedy dot consumes up to the last comment close on the same line. -/
def removeCommentsGo : Nat → List Char → List Char
  | 0, l => l
  | _ + 1, [] => []
  | fuel + 1, l =>
    match l with
    | '{' :: '/' :: '*' :: rest =>
      let seg := rest.takeWhile fun c => !isLineTerm c
      (match lastIdxClose seg with
       | some i => removeCommentsGo fuel (rest.drop (i + 3))
       | none => '{' :: removeCommentsGo fuel ('/' :: '*' :: rest))
    | c :: rest => c :: removeCommentsGo fuel rest
    | [] => []

/-- Prefix stripping helper for the YouTube line regex. -/
def stripPre (pre : List Char) (l : List Char) : Option (List Char) :=
  if pre.isPrefixOf l then some (l.drop pre.length) else none

/-- The host alternation of the YouTube regex followed by a slash and at
least one character. -/
def ytHostMatch (l : List Char) : Bool :=
  ["youtube.com", "youtu.be", "youtube"].any fun h =>
    match stripPre h.data l with
    | some ('/' :: r) => !r.isEmpty
    | _ => false

/-- Whole-line match of the YouTube URL regex with its optional protocol
and www prefixes. -/
def matchYt (l : List Char) : Bool :=
  ["https://", "http://", ""].any fun pr =>
    match stripPre pr.data l with
    | none => false
    | some l1 =>
      ["www.", ""].any fun w =>
        match stripPre w.data l1 with
        | none => false
        | some l2 => ytHostMatch l2

/-- Global multiline removal of lines wholly matching the YouTube URL
regex (the line content is removed, its line break remains). -/
def removeYoutube (s : String) : String :=
  String.intercalate "\n"
    ((splitOnChar '\n' s).map fun ln => if matchYt ln.data then "" else ln)

/-- Close of a lazy non-whitespace wikilink body: the shortest run of
non-whitespace characters up to the first double closing bracket. -/
def wikiSeek (acc : List Char) : List Char → Option (List Char × List Char)
  | ']' :: ']' :: rest => some (acc.reverse, rest)
  | c :: rest => if isJsWs c then none else wikiSeek (c :: acc) rest
  | [] => none

/-- Global replacement of wikilinks preceded by a non-bang character by
that character and the link body. -/
def wikiTextGo : Nat → List Char → List Char
  | 0, l => l
  | _ + 1, [] => []
  | fuel + 1, l =>
    match l with
    | c :: '[' :: '[' :: rest =>
      if c = '!' then c :: wikiTextGo fuel ('[' :: '[' :: rest)
      else
        match wikiSeek [] rest with
        | some (txt, rest2) => c :: (txt ++ wikiTextGo fuel rest2)
        | none => c :: wikiTextGo fuel ('[' :: '[' :: rest)
    | c :: rest => c :: wikiTextGo fuel rest
    | [] => []

/-- Global removal of wikilink images. -/
def wikiImgGo : Nat → List Char → List Char
  | 0, l => l
  | _ + 1, [] => []
  | fuel + 1, l =>
    match l with
    | '!' :: '[' :: rest =>
      (match wikiSeek [] rest with
       | some (_, rest2) => wikiImgGo fuel rest2
       | none => '!' :: wikiImgGo fuel ('[' :: rest))
    | c :: rest => c :: wikiImgGo fuel rest
    | [] => []

/-- The regex preprocessing chain of extractDescription: remove the
frontmatter block, remove braced comments, remove whole-line YouTube URLs,
reduce wikilinks to their text, remove wikilink images. -/
def descPreprocess (source : String) : String :=
  let s1 := removeFM source.data
  let s2 := removeCommentsGo s1.length s1
  let s3 := (removeYoutube ⟨s2⟩).data
  let s4 := wikiTextGo s3.length s3
  let s5 := wikiImgGo s4.length s4
  ⟨s5⟩

/-- extractDescription: preprocess, strip structural markdown through
the remark processor (a parameter of the embedding), and, when the result
is non-empty (truthy), keep its first two hundred characters followed by an
ellipsis marker; an empty result is absent. -/
def extractDescription (stripMd : String → String) (source : String) : Option String :=
  let stripped := stripMd (descPreprocess source)
  if stripped = "" then none
  else some (⟨stripped.data.take 200⟩ ++ "...")

/-- Splits a character list at the first colon. -/
def splitColon : List Char → Option (List Char × List Char)
  | [] => none
  | c :: rest =>
    if c = ':' then some ([], rest)
    else
      match splitColon rest with
      | some (k, v) => some (c :: k, v)
      | none => none

/-- Strips one pair of surrounding double quotes. -/
def stripQuotes (l : List Char) : List Char :=
  match l with
  | '"' :: rest => if rest.getLast? = some '"' then rest.dropLast else l
  | _ => l

/-- One frontmatter mapping line as key, colon, value. -/
def parseFmLine (ln : String) : Option (String × String) :=
  match splitColon ln.data with
  | none => none
  | some (k, v) =>
    let key := jsTrimList k
    let value := stripQuotes (jsTrimList v)
    if key = [] then none else some (⟨key⟩, ⟨value⟩)

/-- Modelled from the spec: the gray-matter frontmatter reader (a
third-party library, not part of the sources) splits a leading
triple-dash-delimited block from the content and reads its simple key,
colon, value mappings; without such a block there is no frontmatter
data. -/
def fmData (content : String) : List (String × String) :=
  match splitOnChar '\n' content with
  | [] => []
  | first :: rest =>
    if first = "---" then
      if rest.contains "---" then
        (rest.takeWhile fun ln => ln ≠ "---").filterMap parseFmLine
      else []
    else []

/-- The JavaScript falsy-or chain on an optional string: an absent or
empty left operand falls through to the right one. -/
def jsOrS (x : Option String) (y : String) : String :=
  match x with
  | some s => if s = "" then y else s
  | none => y

/-- The final path segment. -/
def lastSegment (p : String) : String :=
  (splitOnChar '/' p).getLastD ""

/-- The path fallback suffix removal regex (case sensitive, alternation
order MDX before markdown). -/
def stripMdSuffix (s : String) : String :=
  if List.isSuffixOf ".mdx".data s.data then ⟨s.data.take (s.data.length - 4)⟩
  else if List.isSuffixOf ".md".data s.data then ⟨s.data.take (s.data.length - 3)⟩
  else s

/-- The result of parseMarkdownFile: the frontmatter data spread first,
then the resolved title and description. -/
structure ParsedDoc where
  fm : List (String × String)
  title : String
  description : String
deriving DecidableEq, Repr

/-- parseMarkdownFile: frontmatter title, else extracted heading title,
else the path's final segment without its markdown suffix, else empty; and
frontmatter description, else derived description, else empty. -/
def parseMarkdownFile (stripMd : String → String) (content path : String) : ParsedDoc :=
  let fm := fmData content
  { fm := fm
    title := jsOrS (List.lookup "title" fm)
      (jsOrS (extractTitle content)
        (jsOrS (some (stripMdSuffix (lastSegment path))) ""))
    description := jsOrS (List.lookup "description" fm)
      (jsOrS (extractDescription stripMd content) "") }

/-- The failure modes of the try block of processFile before its
completing UPDATE, together with the message each one raises: a fetch
failure, a missing object, an oversized object, or a parse failure. -/
def fetchParseFails (env : Env) (w : World) (key path e : String) : Prop :=
  env.fetchFails = some e
  ∨ (env.fetchFails = none ∧ lookupObject w.objects key = none
      ∧ e = missingObjectMsg env.stype key)
  ∨ (env.fetchFails = none ∧ ∃ obj, lookupObject w.objects key = some obj
      ∧ obj.size > MAX_FILE_BYTES ∧ e = "File too large: " ++ toString obj.size)
  ∨ (env.fetchFails = none ∧ ∃ obj, lookupObject w.objects key = some obj
      ∧ obj.size ≤ MAX_FILE_BYTES ∧ env.parse obj.text path = .error e)

/-- An empty metadata bag, the initial value of a catalog row. -/
def emptyMeta : Metadata :=
  { title := "", description := "", publish := none, permalink := none,
    authors := none, date := none, extra := [] }

/-- Metadata as extracted from the sample document. -/
def sampleMd : Metadata :=
  { title := "Test Article", description := "A test markdown file",
    publish := none, permalink := some "/docs/page/", authors := none,
    date := some "2024-03-20", extra := [] }

/-- Metadata carrying the suppress-publish flag. -/
def sampleMdSuppress : Metadata :=
  { sampleMd with publish := some false }

/-- A healthy environment whose parser always yields the sample
metadata. -/
def sampleEnv : Env :=
  { stype := .r2, parse := fun _ _ => .ok (sampleMd, "body text"),
    parseDate := fun _ => 1710892800, fetchFails := none, dbFails := false,
    storageDeleteFails := false, indexUpsertFails := false,
    indexDeleteFails := false }

/-- The same environment with a parser signalling publish
suppression. -/
def sampleEnvSuppress : Env :=
  { sampleEnv with parse := fun _ _ => .ok (sampleMdSuppress, "body text") }

/-- The sample raw key. -/
def sampleKey : String := "site1/main/raw/articles/test.md"

/-- The catalog row awaiting the sample notification. -/
def sampleBlob : Blob :=
  { id := "b1", siteId := "site1", path := "articles/test.md", createdAt := 5,
    metadata := emptyMeta, permalink := none, syncStatus := .PENDING,
    syncError := none }

/-- A world holding the sample row and its stored object. -/
def sampleWorld : World :=
  { blobs := [sampleBlob],
    objects := [(sampleKey, { size := 100, text := "content" })],
    search := [], acked := false, trace := [] }

/-- The same world with the object missing from storage. -/
def sampleWorldNoObj : World :=
  { sampleWorld with objects := [] }

/-- The same world with an oversized stored object. -/
def sampleWorldBig : World :=
  { sampleWorld with objects := [(sampleKey, { size := 6000000, text := "content" })] }

/-- A catalog row for a non-markdown file. -/
def samplePngBlob : Blob :=
  { sampleBlob with path := "img/x.png" }

/-- A world holding only the non-markdown row. -/
def sampleWorldPng : World :=
  { sampleWorld with blobs := [samplePngBlob] }

/-- The raw key of the non-markdown notification. -/
def samplePngKey : String := "site1/main/raw/img/x.png"

/-- A world with no catalog rows at all. -/
def sampleWorldEmpty : World :=
  { sampleWorld with blobs := [] }

/-! ## Theorems -/

/-- Splitting at the first slash of a slash-free run followed by a slash
yields that run and the remainder. -/
theorem splitSlash_append (xs : List Char) (rest : List Char)
    (h : ∀ c ∈ xs, c ≠ '/') :
    splitSlash (xs ++ '/' :: rest) = some (xs, rest) := by
  induction xs with
  | nil => simp [splitSlash]
  | cons c xs ih =>
    have hc : c ≠ '/' := h c (by simp)
    have hxs : ∀ x ∈ xs, x ≠ '/' := fun x hx => h x (by simp [hx])
    simp [splitSlash, hc, ih hxs]

/-- Splitting an entirely slash-free run fails. -/
theorem splitSlash_no_slash (xs : List Char) (h : ∀ c ∈ xs, c ≠ '/') :
    splitSlash xs = none := by
  induction xs with
  | nil => rfl
  | cons c xs ih =>
    have hc : c ≠ '/' := h c (by simp)
    have hxs : ∀ x ∈ xs, x ≠ '/' := fun x hx => h x (by simp [hx])
    simp [splitSlash, hc, ih hxs]

/-- A slash-free segment other than the literal raw segment, followed by
a slash, never reads as the literal raw segment followed by a slash. -/
theorem seg_not_raw (u v w : List Char)
    (hu : ∀ c ∈ u, c ≠ '/') (hne : u ≠ ['r', 'a', 'w']) :
    u ++ '/' :: v ≠ 'r' :: 'a' :: 'w' :: '/' :: w := by
  intro he
  rcases u with _ | ⟨c1, _ | ⟨c2, _ | ⟨c3, _ | ⟨c4, u⟩⟩⟩⟩ <;>
    simp_all [List.cons_eq_cons]

/-- Identifier characters are never slashes. -/
theorem ident_no_slash (l : List Char) (h : isIdentChars l = true) :
    ∀ ch ∈ l, ch ≠ '/' := by
  intro ch hch
  rcases Bool.and_eq_true_iff.mp h with ⟨-, hall⟩
  have := List.all_eq_true.mp hall ch hch
  intro hslash
  subst hslash
  simp [isWordHyphen, Char.isAlphanum, Char.isAlpha, Char.isUpper, Char.isLower,
    Char.isDigit] at this

/-- Character-list shape of a well-formed raw key. -/
theorem data_key (a b c : String) :
    (a ++ "/" ++ b ++ "/raw/" ++ c).data
      = a.data ++ '/' :: (b.data ++ '/' :: 'r' :: 'a' :: 'w' :: '/' :: c.data) := by
  show (((a.data ++ ['/']) ++ b.data) ++ ['/', 'r', 'a', 'w', '/']) ++ c.data = _
  simp

/-- Character-list shape of a key whose third segment is arbitrary. -/
theorem data_key_seg (a b seg c : String) :
    (a ++ "/" ++ b ++ "/" ++ seg ++ "/" ++ c).data
      = a.data ++ '/' :: (b.data ++ '/' :: (seg.data ++ '/' :: c.data)) := by
  show ((((a.data ++ ['/']) ++ b.data) ++ ['/']) ++ seg.data ++ ['/']) ++ c.data = _
  simp

/-- Character-list shape of a key with an empty second segment. -/
theorem data_key_noBranch (a c : String) :
    (a ++ "//raw/" ++ c).data
      = a.data ++ '/' :: '/' :: 'r' :: 'a' :: 'w' :: '/' :: c.data := by
  show (a.data ++ ['/', '/', 'r', 'a', 'w', '/']) ++ c.data = _
  simp

/-- A field-preserving rewrite of every row commutes with picking the
latest row. -/
theorem pickLatest_map (l : List Blob) (g : Blob → Blob)
    (hg : ∀ b, (g b).createdAt = b.createdAt) :
    pickLatest (l.map g) = (pickLatest l).map g := by
  induction l with
  | nil => rfl
  | cons b rest ih =>
    simp only [List.map_cons, pickLatest, ih]
    cases pickLatest rest with
    | none => rfl
    | some c => by_cases hlt : b.createdAt < c.createdAt <;> simp [hg, hlt]

/-- A rewrite preserving site id and path commutes with the row filter
of the lookup query. -/
theorem filter_map_site (l : List Blob) (g : Blob → Blob) (siteId path : String)
    (hg : ∀ b, (g b).siteId = b.siteId ∧ (g b).path = b.path) :
    (l.map g).filter (fun b => b.siteId = siteId && b.path = path)
      = (l.filter fun b => b.siteId = siteId && b.path = path).map g := by
  induction l with
  | nil => rfl
  | cons b rest ih =>
    by_cases hb : (b.siteId = siteId && b.path = path) = true
    · simp [List.filter_cons, hb, (hg b).1, (hg b).2, ih]
    · simp only [Bool.not_eq_true] at hb
      simp [List.filter_cons, hb, (hg b).1, (hg b).2, ih]

/-- The effect of an UPDATE on the lookup query: the row found is the
old row, rewritten when its id matches the updated one. -/
theorem findLatestBlob_update (blobs : List Blob) (id : String) (f : Blob → Blob)
    (siteId path : String)
    (hf : ∀ b, (f b).siteId = b.siteId ∧ (f b).path = b.path ∧ (f b).createdAt = b.createdAt) :
    findLatestBlob (updateBlobs blobs id f) siteId path
      = (findLatestBlob blobs siteId path).map fun b => if b.id = id then f b else b := by
  unfold findLatestBlob updateBlobs
  rw [filter_map_site, pickLatest_map]
  · intro b; by_cases hb : b.id = id <;> simp [hb, (hf b).2.2]
  · intro b; by_cases hb : b.id = id <;> simp [hb, (hf b).1, (hf b).2.1]

/-- Looking up a key among entries filtered to exclude it finds
nothing. -/
theorem lookup_filter_ne {α β : Type} [DecidableEq α] [BEq α] [LawfulBEq α]
    (l : List (α × β)) (k : α) :
    List.lookup k (l.filter fun e => e.1 ≠ k) = none := by
  induction l with
  | nil => rfl
  | cons e rest ih =>
    by_cases he : e.1 = k
    · simpa [List.filter_cons, he] using ih
    · have hbeq : (k == e.1) = false := beq_eq_false_iff_ne.mpr (Ne.symm he)
      rw [List.filter_cons, if_pos (by simpa using he)]
      cases e with
      | mk a b => simpa [List.lookup, hbeq] using ih

/-- An upsert makes the upserted document the one found under its
key. -/
theorem searchLookup_upsert (search : List ((String × String) × SearchDoc))
    (k : String × String) (d : SearchDoc) :
    List.lookup k (upsertSearch search k d) = some d := by
  simp [upsertSearch, List.lookup]

/-- Claim C1: once a document is claimed (transitioned to PROCESSING),
any failure of the remaining steps (fetch failure, missing object,
oversized file, parse error) leaves the document in ERROR with the failure
message as its sync error and its metadata untouched, re-raises the error,
and leaves the message unacknowledged; a fully successful run instead ends
in SUCCESS with a cleared sync error. -/
theorem processing_failure_error_success (env : Env) (w : World)
    (raw s br p : String) (blob : Blob)
    (hdb : env.dbFails = false)
    (hfind : findLatestBlob w.blobs s p = some blob)
    (hdec : decodeKey raw = .ok (s, br, p))
    (hmd : isMarkdownPath p = true)
    (hfs : hasFlowershow p = false)
    (hack : w.acked = false) :
    (∀ e, fetchParseFails env w (mkKey s br p) p e →
        (processFile env w s br p).1 = .error e
        ∧ findLatestBlob (processFile env w s br p).2.blobs s p
            = some { blob with syncStatus := .ERROR, syncError := some e }
        ∧ (handleMessage env w raw).acked = false)
    ∧ (∀ obj md body,
        env.fetchFails = none →
        lookupObject w.objects (mkKey s br p) = some obj →
        obj.size ≤ MAX_FILE_BYTES →
        env.parse obj.text p = .ok (md, body) →
        ¬ md.publish = some false →
        (processFile env w s br p).1 = .ok ()
        ∧ findLatestBlob (processFile env w s br p).2.blobs s p
            = some { blob with metadata := md,
                               permalink := normalizePermalink md.permalink,
                               syncStatus := .SUCCESS, syncError := none }) := by
  constructor
  · intro e hfail
    rcases hfail with hff | ⟨hff, hobj, rfl⟩ | ⟨hff, obj, hobj, hsz, rfl⟩
      | ⟨hff, obj, hobj, hsz, hparse⟩
    · refine ⟨?_, ?_, ?_⟩ <;>
        simp [processFile, getBlobId, hdb, hfind, sqlUpdateBlob, tryProcess,
          fetchContent, addTrace, hff, handleMessage, hdec, hmd, hfs, hack,
          findLatestBlob_update]
    · refine ⟨?_, ?_, ?_⟩ <;>
        simp [processFile, getBlobId, hdb, hfind, sqlUpdateBlob, tryProcess,
          fetchContent, addTrace, hff, hobj, handleMessage, hdec, hmd, hfs, hack,
          findLatestBlob_update]
    · refine ⟨?_, ?_, ?_⟩ <;>
        simp [processFile, getBlobId, hdb, hfind, sqlUpdateBlob, tryProcess,
          fetchContent, addTrace, hff, hobj, hsz, handleMessage, hdec, hmd, hfs, hack,
          findLatestBlob_update]
    · have hnot : ¬ obj.size > MAX_FILE_BYTES := by omega
      refine ⟨?_, ?_, ?_⟩ <;>
        simp [processFile, getBlobId, hdb, hfind, sqlUpdateBlob, tryProcess,
          fetchContent, addTrace, hff, hobj, hnot, hparse, handleMessage, hdec, hmd,
          hfs, hack, findLatestBlob_update]
  · intro obj md body hff hobj hsz hparse hpub
    have hnot : ¬ obj.size > MAX_FILE_BYTES := by omega
    by_cases hup : env.indexUpsertFails = true <;>
      refine ⟨?_, ?_⟩ <;>
        simp [processFile, getBlobId, hdb, hfind, sqlUpdateBlob, tryProcess,
          fetchContent, addTrace, hff, hobj, hnot, hparse, hpub, indexInTypesense,
          hup, findLatestBlob_update]

/-- Claim C4: a parsed markdown document whose metadata carries publish
set to false has its storage object, catalog row and search document all
removed; a storage-deletion or search-removal failure does not abort the
remaining removal steps (the catalog row is removed regardless); and the
document is never observed in SUCCESS or ERROR (the only status write
traced is the PROCESSING claim). -/
theorem publish_suppression_removes_all (env : Env) (w : World)
    (s br p : String) (blob : Blob) (obj : StorObj) (md : Metadata) (body : String)
    (hdb : env.dbFails = false)
    (hfind : findLatestBlob w.blobs s p = some blob)
    (htr : w.trace = [])
    (hff : env.fetchFails = none)
    (hobj : lookupObject w.objects (mkKey s br p) = some obj)
    (hsz : obj.size ≤ MAX_FILE_BYTES)
    (hparse : env.parse obj.text p = .ok (md, body))
    (hpub : md.publish = some false) :
    (processFile env w s br p).1 = .ok ()
      ∧ (∀ b2 ∈ (processFile env w s br p).2.blobs, b2.id ≠ blob.id)
      ∧ (env.storageDeleteFails = false →
          lookupObject (processFile env w s br p).2.objects (mkKey s br p) = none)
      ∧ (env.indexDeleteFails = false →
          searchLookup (processFile env w s br p).2.search s blob.id = none)
      ∧ (∀ st, Event.setStatus blob.id st ∈ (processFile env w s br p).2.trace →
          st = .PROCESSING) := by
  have hnot : ¬ obj.size > MAX_FILE_BYTES := by omega
  have hobj2 : List.lookup (mkKey s br p) w.objects = some obj := hobj
  by_cases hsd : env.storageDeleteFails = true <;>
    by_cases hid : env.indexDeleteFails = true <;>
      refine ⟨?_, ?_, ?_, ?_, ?_⟩ <;>
        simp [processFile, getBlobId, hdb, hfind, sqlUpdateBlob, sqlDeleteBlob,
          tryProcess, fetchContent, addTrace, hff, hobj2, hnot, hparse, hpub,
          hsd, hid, htr, searchLookup, removeSearch, lookupObject,
          lookup_filter_ne, updateBlobs, List.mem_filter] <;>
        aesop

/-- Claim C9: failures of the search index upsert or removal are never
propagated: with the index failing, the pipeline still returns success, the
catalog row still carries SUCCESS with a cleared sync error (or, on the
suppression branch, is still deleted), and the message is still
acknowledged. -/
theorem index_failure_never_propagates (env : Env) (w : World)
    (raw s br p : String) (blob : Blob) (obj : StorObj) (md : Metadata) (body : String)
    (hdb : env.dbFails = false)
    (hfind : findLatestBlob w.blobs s p = some blob)
    (hdec : decodeKey raw = .ok (s, br, p))
    (hmd : isMarkdownPath p = true)
    (hfs : hasFlowershow p = false)
    (hff : env.fetchFails = none)
    (hobj : lookupObject w.objects (mkKey s br p) = some obj)
    (hsz : obj.size ≤ MAX_FILE_BYTES)
    (hparse : env.parse obj.text p = .ok (md, body)) :
    (¬ md.publish = some false →
        (processFile env w s br p).1 = .ok ()
        ∧ findLatestBlob (processFile env w s br p).2.blobs s p
            = some { blob with metadata := md,
                               permalink := normalizePermalink md.permalink,
                               syncStatus := .SUCCESS, syncError := none }
        ∧ (handleMessage env w raw).acked = true)
      ∧ (md.publish = some false →
        (processFile env w s br p).1 = .ok ()
        ∧ (∀ b2 ∈ (processFile env w s br p).2.blobs, b2.id ≠ blob.id)
        ∧ (handleMessage env w raw).acked = true) := by
  have hnot : ¬ obj.size > MAX_FILE_BYTES := by omega
  constructor
  · intro hpub
    by_cases hup : env.indexUpsertFails = true <;>
      refine ⟨?_, ?_, ?_⟩ <;>
        simp [processFile, getBlobId, hdb, hfind, sqlUpdateBlob, tryProcess,
          fetchContent, addTrace, hff, hobj, hnot, hparse, hpub, indexInTypesense,
          hup, findLatestBlob_update, handleMessage, hdec, hmd, hfs]
  · intro hpub
    by_cases hsd : env.storageDeleteFails = true <;>
      by_cases hid : env.indexDeleteFails = true <;>
        refine ⟨?_, ?_, ?_⟩ <;>
          simp [processFile, getBlobId, hdb, hfind, sqlUpdateBlob, sqlDeleteBlob,
            tryProcess, fetchContent, addTrace, hff, hobj, hnot, hparse, hpub,
            hsd, hid, handleMessage, hdec, hmd, hfs, updateBlobs, List.mem_filter]

/-- Claim C5: the extracted title is the frontmatter title when present
(non-empty), otherwise the first first-level heading cleaned of wikilink
markers, formatting characters and inline links, otherwise the path's final
segment without its markdown suffix, otherwise empty; in particular, with
no frontmatter title and no heading, the test path yields the bare file
stem. -/
theorem title_resolution (stripMd : String → String) (content path : String) :
    (∀ t, List.lookup "title" (fmData content) = some t → t ≠ "" →
      (parseMarkdownFile stripMd content path).title = t)
    ∧ ((List.lookup "title" (fmData content) = none
        ∨ List.lookup "title" (fmData content) = some "") →
      ∀ t, extractTitle content = some t → t ≠ "" →
        (parseMarkdownFile stripMd content path).title = t)
    ∧ ((List.lookup "title" (fmData content) = none
        ∨ List.lookup "title" (fmData content) = some "") →
      (extractTitle content = none ∨ extractTitle content = some "") →
        (parseMarkdownFile stripMd content path).title
          = stripMdSuffix (lastSegment path))
    ∧ (parseMarkdownFile stripMd "Just a paragraph of text.\n" "articles/test.md").title
        = "test"
    ∧ extractTitle "# Hello *world*" = some "Hello world" := by
  refine ⟨?_, ?_, ?_, ?_, ?_⟩
  · intro t ht htne
    simp [parseMarkdownFile, jsOrS, ht, htne]
  · intro hfm t ht htne
    rcases hfm with hfm | hfm <;> simp [parseMarkdownFile, jsOrS, hfm, ht, htne]
  · intro hfm hti
    rcases hfm with hfm | hfm <;> rcases hti with hti | hti <;>
      by_cases hp : stripMdSuffix (lastSegment path) = "" <;>
        simp [parseMarkdownFile, jsOrS, hfm, hti, hp]
  · rfl
  · rfl

/-- Claim C6: with no frontmatter description, a derived plain text
longer than two hundred characters yields exactly its first two hundred
characters followed by the ellipsis marker, an empty derived plain text
yields an absent derivation, and the final description then falls back to
the empty string. -/
theorem description_truncation (stripMd : String → String) (content path : String) :
    ((stripMd (descPreprocess content)).data.length > 200 →
      extractDescription stripMd content
        = some (String.mk ((stripMd (descPreprocess content)).data.take 200) ++ "..."))
    ∧ (stripMd (descPreprocess content) = "" →
      extractDescription stripMd content = none)
    ∧ ((List.lookup "description" (fmData content) = none
        ∨ List.lookup "description" (fmData content) = some "") →
      extractDescription stripMd content = none →
      (parseMarkdownFile stripMd content path).description = "")
    ∧ ((List.lookup "description" (fmData content) = none
        ∨ List.lookup "description" (fmData content) = some "") →
      (stripMd (descPreprocess content)).data.length > 200 →
      (parseMarkdownFile stripMd content path).description
        = String.mk ((stripMd (descPreprocess content)).data.take 200) ++ "...") := by
  have hlong : ∀ h : (stripMd (descPreprocess content)).data.length > 200,
      extractDescription stripMd content
        = some (String.mk ((stripMd (descPreprocess content)).data.take 200) ++ "...") := by
    intro hlen
    have hne : stripMd (descPreprocess content) ≠ "" := by
      intro h
      rw [h] at hlen
      simp at hlen
    simp [extractDescription, hne]
  refine ⟨hlong, ?_, ?_, ?_⟩
  · intro h
    simp [extractDescription, h]
  · intro hfm hd
    rcases hfm with hfm | hfm <;> simp [parseMarkdownFile, jsOrS, hfm, hd]
  · intro hfm hlen
    have hne2 : String.mk ((stripMd (descPreprocess content)).data.take 200) ++ "..." ≠ "" := by
      intro h
      have : (String.mk ((stripMd (descPreprocess content)).data.take 200) ++ "...").data
          = [] := by rw [h]
      simp [String.data_append] at this
    rcases hfm with hfm | hfm <;>
      simp [parseMarkdownFile, jsOrS, hfm, hlong hlen, hne2]

/-- Claim C3 (amended): decoding a raw key of the shape a/b/raw/c with a
and b non-empty over the identifier charset and c non-empty and free of
line terminators returns exactly (a, b, c); an empty first or second
segment or a third segment other than the literal raw segment fails with
the invalid-key-format error, and identifier-charset violations in a or b
fail with the invalid-identifier error. -/
theorem keyCodec_decode (a b c : String) :
    (isIdentStr a = true → isIdentStr b = true → c ≠ "" →
      c.data.any isLineTerm = false →
      decodeKey (a ++ "/" ++ b ++ "/raw/" ++ c) = .ok (a, b, c))
    ∧ decodeKey ("" ++ "/" ++ b ++ "/raw/" ++ c)
        = .error (.invalidKeyFormat ("" ++ "/" ++ b ++ "/raw/" ++ c))
    ∧ ((∀ ch ∈ a.data, ch ≠ '/') →
        decodeKey (a ++ "//raw/" ++ c) = .error (.invalidKeyFormat (a ++ "//raw/" ++ c)))
    ∧ (∀ seg : String, (∀ ch ∈ a.data, ch ≠ '/') → (∀ ch ∈ b.data, ch ≠ '/') →
        (∀ ch ∈ seg.data, ch ≠ '/') → seg ≠ "raw" →
        decodeKey (a ++ "/" ++ b ++ "/" ++ seg ++ "/" ++ c)
          = .error (.invalidKeyFormat (a ++ "/" ++ b ++ "/" ++ seg ++ "/" ++ c)))
    ∧ ((∀ ch ∈ a.data, ch ≠ '/') → a ≠ "" → (∀ ch ∈ b.data, ch ≠ '/') → b ≠ "" →
        c ≠ "" → c.data.any isLineTerm = false →
        ¬ (isIdentStr a = true ∧ isIdentStr b = true) →
        decodeKey (a ++ "/" ++ b ++ "/raw/" ++ c) = .error (.invalidIdentifier a b)) := by
  refine ⟨?_, ?_, ?_, ?_, ?_⟩
  · intro ha hb hc hcl
    have hano : ∀ ch ∈ a.data, ch ≠ '/' := ident_no_slash a.data ha
    have hbno : ∀ ch ∈ b.data, ch ≠ '/' := ident_no_slash b.data hb
    have hane : a.data ≠ [] := by
      rcases Bool.and_eq_true_iff.mp ha with ⟨hne, -⟩
      simpa [List.isEmpty_iff] using hne
    have hbne : b.data ≠ [] := by
      rcases Bool.and_eq_true_iff.mp hb with ⟨hne, -⟩
      simpa [List.isEmpty_iff] using hne
    have hce : c.data ≠ [] := by
      intro h; exact hc (by cases c; simp_all)
    simp only [decodeKey, data_key, matchKeyChars,
      splitSlash_append _ _ hano, splitSlash_append _ _ hbno]
    simp [hane, hbne, hce, hcl, show isIdentChars a.data = true from ha,
      show isIdentChars b.data = true from hb]
  · simp only [decodeKey, data_key ("" : String), matchKeyChars]
    simp [splitSlash]
  · intro hano
    simp only [decodeKey, data_key_noBranch, matchKeyChars,
      splitSlash_append _ _ hano]
    by_cases ha0 : a.data = []
    · simp [ha0]
    · simp [ha0, splitSlash]
  · intro seg hano hbno hsegno hsegraw
    have hsegne : seg.data ≠ ['r', 'a', 'w'] := by
      intro h; exact hsegraw (by cases seg; simp_all)
    have hmk : matchKeyChars (a.data ++ '/' :: (b.data ++ '/' :: (seg.data ++ '/' :: c.data)))
        = none := by
      simp only [matchKeyChars,
        splitSlash_append _ _ hano, splitSlash_append _ _ hbno]
      by_cases ha0 : a.data = []
      · simp [ha0]
      · by_cases hb0 : b.data = []
        · simp [ha0, hb0]
        · simp only [ha0, hb0, if_neg, not_false_eq_true]
          split
          · rename_i heq
            exact absurd heq (seg_not_raw seg.data c.data _ hsegno hsegne)
          · simp [ha0, hb0]
    simp [decodeKey, data_key_seg, hmk]
  · intro hano hae hbno hbe hc hcl hni
    have hane : a.data ≠ [] := by intro h; exact hae (by cases a; simp_all)
    have hbne : b.data ≠ [] := by intro h; exact hbe (by cases b; simp_all)
    have hce : c.data ≠ [] := by intro h; exact hc (by cases c; simp_all)
    have hfalse : (isIdentChars a.data && isIdentChars b.data) = false := by
      by_cases h1 : isIdentChars a.data = true <;>
        by_cases h2 : isIdentChars b.data = true <;>
          simp_all [isIdentStr]
    simp only [decodeKey, data_key, matchKeyChars,
      splitSlash_append _ _ hano, splitSlash_append _ _ hbno]
    simp [hane, hbne, hce, hcl, hfalse]

/-- Claim C3 counterexample: a path segment containing a line terminator
is non-empty, the first two segments are identifier-charset conforming, yet
decoding fails with the invalid-key-format error instead of returning the
three segments, because the dot of the key regex does not match line
terminators. -/
theorem keyCodec_newline_counterexample :
    isIdentStr "a" = true ∧ isIdentStr "b" = true ∧ ("x\ny" : String) ≠ ""
      ∧ decodeKey ("a" ++ "/" ++ "b" ++ "/raw/" ++ "x\ny")
          = .error (.invalidKeyFormat "a/b/raw/x\ny")
      ∧ decodeKey ("a" ++ "/" ++ "b" ++ "/raw/" ++ "x\ny")
          ≠ .ok ("a", "b", "x\ny") := by
  refine ⟨by decide, by decide, by decide, by rfl, ?_⟩
  intro h
  rw [show decodeKey ("a" ++ "/" ++ "b" ++ "/raw/" ++ "x\ny")
      = .error (.invalidKeyFormat "a/b/raw/x\ny") from rfl] at h
  exact Except.noConfusion h

/-- Claim C2: reprocessing the same notification after a successful run
on unchanged stored content produces the identical document record (same
metadata, SUCCESS status, cleared sync error, same permalink) and an
identical search document. -/
theorem idempotent_reprocessing (env : Env) (w : World) (raw s br p : String)
    (blob : Blob) (obj : StorObj) (md : Metadata) (body : String)
    (hdb : env.dbFails = false)
    (hfind : findLatestBlob w.blobs s p = some blob)
    (hdec : decodeKey raw = .ok (s, br, p))
    (hmd : isMarkdownPath p = true)
    (hfs : hasFlowershow p = false)
    (hff : env.fetchFails = none)
    (hobj : lookupObject w.objects (mkKey s br p) = some obj)
    (hsz : obj.size ≤ MAX_FILE_BYTES)
    (hparse : env.parse obj.text p = .ok (md, body))
    (hpub : ¬ md.publish = some false) :
    ∃ d : Blob,
      findLatestBlob (handleMessage env w raw).blobs s p = some d
      ∧ findLatestBlob (handleMessage env (handleMessage env w raw) raw).blobs s p = some d
      ∧ d.syncStatus = .SUCCESS ∧ d.syncError = none
      ∧ searchLookup (handleMessage env (handleMessage env w raw) raw).search s blob.id
          = searchLookup (handleMessage env w raw).search s blob.id
      ∧ (handleMessage env w raw).acked = true
      ∧ (handleMessage env (handleMessage env w raw) raw).acked = true := by
  have hnot : ¬ obj.size > MAX_FILE_BYTES := by omega
  apply Exists.intro
    ({ blob with metadata := md, permalink := normalizePermalink md.permalink,
                 syncStatus := .SUCCESS, syncError := none })
  refine ⟨?_, ?_, rfl, rfl, ?_, ?_, ?_⟩ <;>
    by_cases hup : env.indexUpsertFails = true <;>
      simp [handleMessage, hdec, hmd, hfs, processFile, getBlobId, hdb, hfind,
        sqlUpdateBlob, tryProcess, fetchContent, addTrace, hff, hobj, hnot,
        hparse, hpub, indexInTypesense, hup, findLatestBlob_update,
        searchLookup, upsertSearch]

/-- Claim C8: an object whose reported size exceeds the 5 MiB ceiling
fails with the file-too-large error before its body is read (no read-body
step is ever traced, and the outcome is the same for any body of the same
reported size), the document transitions to ERROR with no metadata update,
and the message stays unacknowledged; an object within the ceiling has its
body read. -/
theorem oversized_file_rejected (env : Env) (w : World) (raw s br p : String)
    (blob : Blob) (obj : StorObj)
    (hdb : env.dbFails = false)
    (hfind : findLatestBlob w.blobs s p = some blob)
    (hdec : decodeKey raw = .ok (s, br, p))
    (hmd : isMarkdownPath p = true)
    (hfs : hasFlowershow p = false)
    (hack : w.acked = false)
    (htr : w.trace = [])
    (hff : env.fetchFails = none)
    (hobj : lookupObject w.objects (mkKey s br p) = some obj) :
    (obj.size > MAX_FILE_BYTES →
        (processFile env w s br p).1 = .error ("File too large: " ++ toString obj.size)
        ∧ findLatestBlob (processFile env w s br p).2.blobs s p
            = some { blob with syncStatus := .ERROR,
                               syncError := some ("File too large: " ++ toString obj.size) }
        ∧ Event.readBody (mkKey s br p) ∉ (processFile env w s br p).2.trace
        ∧ (handleMessage env w raw).acked = false
        ∧ (∀ (obj2 : StorObj) (w2 : World), obj2.size = obj.size →
            w2.blobs = w.blobs → env.dbFails = false →
            lookupObject w2.objects (mkKey s br p) = some obj2 →
            (processFile env w2 s br p).1
              = .error ("File too large: " ++ toString obj.size)))
    ∧ (obj.size ≤ MAX_FILE_BYTES →
        Event.readBody (mkKey s br p) ∈ (processFile env w s br p).2.trace) := by
  constructor
  · intro hsz
    refine ⟨?_, ?_, ?_, ?_, ?_⟩
    · simp [processFile, getBlobId, hdb, hfind, sqlUpdateBlob, tryProcess,
        fetchContent, addTrace, hff, hobj, hsz]
    · simp [processFile, getBlobId, hdb, hfind, sqlUpdateBlob, tryProcess,
        fetchContent, addTrace, hff, hobj, hsz, findLatestBlob_update]
    · simp [processFile, getBlobId, hdb, hfind, sqlUpdateBlob, tryProcess,
        fetchContent, addTrace, hff, hobj, hsz, htr]
    · simp [handleMessage, hdec, hmd, hfs, processFile, getBlobId, hdb, hfind,
        sqlUpdateBlob, tryProcess, fetchContent, addTrace, hff, hobj, hsz, hack]
    · intro obj2 w2 hsize hblobs _ hobj2
      simp [processFile, getBlobId, hdb, hblobs, hfind, sqlUpdateBlob, tryProcess,
        fetchContent, addTrace, hff, hobj2, hsize, hsz]
  · intro hsz
    have hnot : ¬ obj.size > MAX_FILE_BYTES := by omega
    rcases hp : env.parse obj.text p with e | ⟨md, body⟩
    · simp [processFile, getBlobId, hdb, hfind, sqlUpdateBlob, tryProcess,
        fetchContent, addTrace, hff, hobj, hnot, hp]
    · by_cases hpub : md.publish = some false
      · by_cases hsd : env.storageDeleteFails = true <;>
          by_cases hid : env.indexDeleteFails = true <;>
            simp [processFile, getBlobId, hdb, hfind, sqlUpdateBlob, sqlDeleteBlob,
              tryProcess, fetchContent, addTrace, hff, hobj, hnot, hp, hpub, hsd, hid]
      · by_cases hup : env.indexUpsertFails = true <;>
          simp [processFile, getBlobId, hdb, hfind, sqlUpdateBlob, tryProcess,
            fetchContent, addTrace, hff, hobj, hnot, hp, hpub, indexInTypesense, hup]

/-- Claim C7: a successfully decoded notification whose path lacks a
markdown/MDX suffix marks the matching document SUCCESS with its sync error
cleared, without a PROCESSING transition, without a content fetch and
without a parse, and the message is acknowledged. -/
theorem nonMarkdown_short_circuit (env : Env) (w : World) (raw s br p : String)
    (blob : Blob)
    (hdec : decodeKey raw = .ok (s, br, p))
    (hmd : isMarkdownPath p = false)
    (hdb : env.dbFails = false)
    (hfind : findLatestBlob w.blobs s p = some blob)
    (htr : w.trace = []) :
    findLatestBlob (handleMessage env w raw).blobs s p
        = some { blob with syncStatus := .SUCCESS, syncError := none }
      ∧ (handleMessage env w raw).acked = true
      ∧ (∀ k, Event.fetch k ∉ (handleMessage env w raw).trace)
      ∧ (∀ q, Event.parsed q ∉ (handleMessage env w raw).trace)
      ∧ (∀ i, Event.setStatus i .PROCESSING ∉ (handleMessage env w raw).trace) := by
  have hrun : handleMessage env w raw
      = { w with blobs := updateBlobs w.blobs blob.id
                    (fun b => { b with syncStatus := .SUCCESS, syncError := none }),
                 trace := w.trace ++ [Event.setStatus blob.id .SUCCESS],
                 acked := true } := by
    simp [handleMessage, hdec, hmd, getBlobId, hdb, hfind, sqlUpdateBlob]
  rw [hrun]
  refine ⟨?_, rfl, ?_, ?_, ?_⟩ <;>
    simp [findLatestBlob_update, hfind, htr]

/-- Claim C10: with a decoded non-markdown path, the message is
acknowledged and no catalog row modified even when the row lookup or status
update fails (no matching document, or the database failing), while on the
markdown path the same lookup failure leaves the message unacknowledged. -/
theorem nonMarkdown_ack_on_lookup_failure (env : Env) (w : World) (raw s br p : String)
    (hdec : decodeKey raw = .ok (s, br, p))
    (hack : w.acked = false) :
    (isMarkdownPath p = false →
        (findLatestBlob w.blobs s p = none ∨ env.dbFails = true) →
        (handleMessage env w raw).acked = true
          ∧ (handleMessage env w raw).blobs = w.blobs)
      ∧ (isMarkdownPath p = true → hasFlowershow p = false →
        (findLatestBlob w.blobs s p = none ∨ env.dbFails = true) →
        (handleMessage env w raw).acked = false
          ∧ (handleMessage env w raw).blobs = w.blobs) := by
  constructor
  · intro hmd hfail
    rcases hfail with hfind | hdb
    · by_cases hdb : env.dbFails = true
      · simp [handleMessage, hdec, hmd, getBlobId, hdb]
      · simp only [Bool.not_eq_true] at hdb
        simp [handleMessage, hdec, hmd, getBlobId, hdb, hfind]
    · simp [handleMessage, hdec, hmd, getBlobId, hdb]
  · intro hmd hfs hfail
    rcases hfail with hfind | hdb
    · by_cases hdb : env.dbFails = true
      · simp [handleMessage, hdec, hmd, hfs, processFile, getBlobId, hdb, hack]
      · simp only [Bool.not_eq_true] at hdb
        simp [handleMessage, hdec, hmd, hfs, processFile, getBlobId, hdb, hfind, hack]
    · simp [handleMessage, hdec, hmd, hfs, processFile, getBlobId, hdb, hack]

/-- Witness for the failure and success state transitions: a missing
object leaves the sample document in ERROR carrying the object-not-found
message with the message unacknowledged, and the healthy run ends in
SUCCESS. -/
theorem processing_failure_error_success_witness :
    ((processFile sampleEnv sampleWorldNoObj "site1" "main" "articles/test.md").1
        = .error "Object not found: site1/main/raw/articles/test.md"
      ∧ findLatestBlob
          (processFile sampleEnv sampleWorldNoObj "site1" "main" "articles/test.md").2.blobs
          "site1" "articles/test.md"
          = some { sampleBlob with
                   syncStatus := .ERROR,
                   syncError := some "Object not found: site1/main/raw/articles/test.md" }
      ∧ (handleMessage sampleEnv sampleWorldNoObj sampleKey).acked = false)
    ∧ ((processFile sampleEnv sampleWorld "site1" "main" "articles/test.md").1 = .ok ()
      ∧ findLatestBlob
          (processFile sampleEnv sampleWorld "site1" "main" "articles/test.md").2.blobs
          "site1" "articles/test.md"
          = some { sampleBlob with
                   metadata := sampleMd,
                   permalink := normalizePermalink sampleMd.permalink,
                   syncStatus := .SUCCESS, syncError := none }) := by
  constructor
  · exact (processing_failure_error_success sampleEnv sampleWorldNoObj sampleKey
      "site1" "main" "articles/test.md" sampleBlob rfl rfl rfl (by decide) rfl rfl).1
      "Object not found: site1/main/raw/articles/test.md"
      (Or.inr (Or.inl ⟨rfl, rfl, rfl⟩))
  · exact (processing_failure_error_success sampleEnv sampleWorld sampleKey
      "site1" "main" "articles/test.md" sampleBlob rfl rfl rfl (by decide) rfl rfl).2
      ⟨100, "content"⟩ sampleMd "body text" rfl rfl (by decide) rfl (by decide)

/-- Witness for idempotent reprocessing on the sample world. -/
theorem idempotent_reprocessing_witness :
    findLatestBlob
        (handleMessage sampleEnv (handleMessage sampleEnv sampleWorld sampleKey) sampleKey).blobs
        "site1" "articles/test.md"
      = findLatestBlob (handleMessage sampleEnv sampleWorld sampleKey).blobs
          "site1" "articles/test.md"
    ∧ searchLookup
        (handleMessage sampleEnv (handleMessage sampleEnv sampleWorld sampleKey) sampleKey).search
        "site1" "b1"
      = searchLookup (handleMessage sampleEnv sampleWorld sampleKey).search "site1" "b1"
    ∧ (handleMessage sampleEnv (handleMessage sampleEnv sampleWorld sampleKey) sampleKey).acked
      = true := by
  obtain ⟨d, h1, h2, _, _, h5, _, h7⟩ :=
    idempotent_reprocessing sampleEnv sampleWorld sampleKey
      "site1" "main" "articles/test.md" sampleBlob ⟨100, "content"⟩ sampleMd "body text"
      rfl rfl rfl (by decide) rfl rfl rfl (by decide) rfl (by decide)
  exact ⟨h2.trans h1.symm, h5, h7⟩

/-- Witness for the key codec: a well-formed key decodes to its three
segments, and each malformed shape fails as stated. -/
theorem keyCodec_decode_witness :
    decodeKey ("site-1" ++ "/" ++ "main" ++ "/raw/" ++ "docs/a.md")
        = .ok ("site-1", "main", "docs/a.md")
      ∧ decodeKey ("" ++ "/" ++ "main" ++ "/raw/" ++ "docs/a.md")
          = .error (.invalidKeyFormat ("" ++ "/" ++ "main" ++ "/raw/" ++ "docs/a.md"))
      ∧ decodeKey ("site-1" ++ "//raw/" ++ "docs/a.md")
          = .error (.invalidKeyFormat ("site-1" ++ "//raw/" ++ "docs/a.md"))
      ∧ decodeKey ("site-1" ++ "/" ++ "main" ++ "/" ++ "cooked" ++ "/" ++ "docs/a.md")
          = .error (.invalidKeyFormat
              ("site-1" ++ "/" ++ "main" ++ "/" ++ "cooked" ++ "/" ++ "docs/a.md"))
      ∧ decodeKey ("site 1" ++ "/" ++ "main" ++ "/raw/" ++ "docs/a.md")
          = .error (.invalidIdentifier "site 1" "main") := by
  refine ⟨?_, ?_, ?_, ?_, ?_⟩
  · exact (keyCodec_decode "site-1" "main" "docs/a.md").1
      (by decide) (by decide) (by decide) (by decide)
  · exact (keyCodec_decode "site-1" "main" "docs/a.md").2.1
  · exact (keyCodec_decode "site-1" "main" "docs/a.md").2.2.1 (by decide)
  · exact (keyCodec_decode "site-1" "main" "docs/a.md").2.2.2.1 "cooked"
      (by decide) (by decide) (by decide) (by decide)
  · exact (keyCodec_decode "site 1" "main" "docs/a.md").2.2.2.2
      (by decide) (by decide) (by decide) (by decide) (by decide) (by decide)
      (by decide)

/-- Witness for publish suppression: the sample document with a
suppressing parser has its row, object and search entry removed and only
the PROCESSING status is ever written. -/
theorem publish_suppression_removes_all_witness :
    (processFile sampleEnvSuppress sampleWorld "site1" "main" "articles/test.md").1 = .ok ()
      ∧ (∀ b2 ∈ (processFile sampleEnvSuppress sampleWorld "site1" "main"
          "articles/test.md").2.blobs, b2.id ≠ "b1")
      ∧ lookupObject
          (processFile sampleEnvSuppress sampleWorld "site1" "main"
            "articles/test.md").2.objects
          (mkKey "site1" "main" "articles/test.md") = none
      ∧ searchLookup
          (processFile sampleEnvSuppress sampleWorld "site1" "main"
            "articles/test.md").2.search "site1" "b1" = none
      ∧ (∀ st, Event.setStatus "b1" st ∈ (processFile sampleEnvSuppress sampleWorld
          "site1" "main" "articles/test.md").2.trace → st = .PROCESSING) := by
  obtain ⟨h1, h2, h3, h4, h5⟩ :=
    publish_suppression_removes_all sampleEnvSuppress sampleWorld
      "site1" "main" "articles/test.md" sampleBlob ⟨100, "content"⟩
      sampleMdSuppress "body text"
      rfl rfl rfl rfl rfl (by decide) rfl (by decide)
  exact ⟨h1, h2, h3 rfl, h4 rfl, h5⟩

/-- Witness for best-effort indexing: with the index upsert failing, the
sample run still succeeds, the row still ends SUCCESS and the message is
still acknowledged. -/
theorem index_failure_never_propagates_witness :
    (processFile { sampleEnv with indexUpsertFails := true } sampleWorld
        "site1" "main" "articles/test.md").1 = .ok ()
      ∧ findLatestBlob
          (processFile { sampleEnv with indexUpsertFails := true } sampleWorld
            "site1" "main" "articles/test.md").2.blobs "site1" "articles/test.md"
          = some { sampleBlob with
                   metadata := sampleMd,
                   permalink := normalizePermalink sampleMd.permalink,
                   syncStatus := .SUCCESS, syncError := none }
      ∧ (handleMessage { sampleEnv with indexUpsertFails := true } sampleWorld
          sampleKey).acked = true := by
  exact (index_failure_never_propagates { sampleEnv with indexUpsertFails := true }
    sampleWorld sampleKey "site1" "main" "articles/test.md" sampleBlob
    ⟨100, "content"⟩ sampleMd "body text"
    rfl rfl rfl (by decide) rfl rfl rfl (by decide) rfl).1 (by decide)

/-- Witness for the title resolution chain on concrete documents. -/
theorem title_resolution_witness :
    (parseMarkdownFile id "---\ntitle: My Title\n---\nbody" "x/y.md").title = "My Title"
      ∧ (parseMarkdownFile id "# Heading\ntext" "x/y.md").title = "Heading"
      ∧ (parseMarkdownFile id "plain text only" "articles/test.md").title
          = stripMdSuffix (lastSegment "articles/test.md") := by
  refine ⟨?_, ?_, ?_⟩
  · exact (title_resolution id "---\ntitle: My Title\n---\nbody" "x/y.md").1
      "My Title" (by decide) (by decide)
  · exact (title_resolution id "# Heading\ntext" "x/y.md").2.1
      (Or.inl (by decide)) "Heading" (by decide) (by decide)
  · exact (title_resolution id "plain text only" "articles/test.md").2.2.1
      (Or.inl (by decide)) (Or.inl (by decide))

set_option maxRecDepth 100000 in
/-- Witness for the description truncation on a long plain text and the
empty fallback. -/
theorem description_truncation_witness :
    extractDescription id (String.mk (List.replicate 250 'a'))
        = some (String.mk (List.replicate 200 'a') ++ "...")
      ∧ extractDescription id "" = none
      ∧ (parseMarkdownFile id "" "x/y.md").description = "" := by
  refine ⟨?_, ?_, ?_⟩
  · have h := (description_truncation id (String.mk (List.replicate 250 'a')) "x/y.md").1
      (by decide)
    simpa using h.trans (by decide)
  · exact (description_truncation id "" "x/y.md").2.1 (by decide)
  · exact (description_truncation id "" "x/y.md").2.2.1 (Or.inl (by decide)) rfl

/-- Witness for the non-markdown short circuit on the sample image
notification. -/
theorem nonMarkdown_short_circuit_witness :
    findLatestBlob (handleMessage sampleEnv sampleWorldPng samplePngKey).blobs
        "site1" "img/x.png"
        = some { samplePngBlob with
                 syncStatus := .SUCCESS, syncError := none }
      ∧ (handleMessage sampleEnv sampleWorldPng samplePngKey).acked = true
      ∧ (∀ k, Event.fetch k ∉ (handleMessage sampleEnv sampleWorldPng samplePngKey).trace)
      ∧ (∀ q, Event.parsed q ∉ (handleMessage sampleEnv sampleWorldPng samplePngKey).trace)
      ∧ (∀ i, Event.setStatus i .PROCESSING
          ∉ (handleMessage sampleEnv sampleWorldPng samplePngKey).trace) := by
  exact nonMarkdown_short_circuit sampleEnv sampleWorldPng samplePngKey
    "site1" "main" "img/x.png" samplePngBlob rfl (by decide) rfl rfl rfl

/-- Witness for the oversized file rejection on the sample world. -/
theorem oversized_file_rejected_witness :
    ((processFile sampleEnv sampleWorldBig "site1" "main" "articles/test.md").1
        = .error "File too large: 6000000"
      ∧ findLatestBlob
          (processFile sampleEnv sampleWorldBig "site1" "main" "articles/test.md").2.blobs
          "site1" "articles/test.md"
          = some { sampleBlob with
                   syncStatus := .ERROR,
                   syncError := some "File too large: 6000000" }
      ∧ Event.readBody (mkKey "site1" "main" "articles/test.md")
          ∉ (processFile sampleEnv sampleWorldBig "site1" "main" "articles/test.md").2.trace
      ∧ (handleMessage sampleEnv sampleWorldBig sampleKey).acked = false)
    ∧ Event.readBody (mkKey "site1" "main" "articles/test.md")
        ∈ (processFile sampleEnv sampleWorld "site1" "main" "articles/test.md").2.trace := by
  constructor
  · obtain ⟨h1, h2, h3, h4, -⟩ :=
      (oversized_file_rejected sampleEnv sampleWorldBig sampleKey
        "site1" "main" "articles/test.md" sampleBlob ⟨6000000, "content"⟩
        rfl rfl rfl (by decide) rfl rfl rfl rfl rfl).1 (by decide)
    exact ⟨h1, h2, h3, h4⟩
  · exact (oversized_file_rejected sampleEnv sampleWorld sampleKey
      "site1" "main" "articles/test.md" sampleBlob ⟨100, "content"⟩
      rfl rfl rfl (by decide) rfl rfl rfl rfl rfl).2 (by decide)

/-- Witness for the non-markdown acknowledgement contrast when no
catalog row matches. -/
theorem nonMarkdown_ack_on_lookup_failure_witness :
    ((handleMessage sampleEnv sampleWorldEmpty samplePngKey).acked = true
      ∧ (handleMessage sampleEnv sampleWorldEmpty samplePngKey).blobs
          = sampleWorldEmpty.blobs)
    ∧ ((handleMessage sampleEnv sampleWorldEmpty sampleKey).acked = false
      ∧ (handleMessage sampleEnv sampleWorldEmpty sampleKey).blobs
          = sampleWorldEmpty.blobs) := by
  constructor
  · exact (nonMarkdown_ack_on_lookup_failure sampleEnv sampleWorldEmpty samplePngKey
      "site1" "main" "img/x.png" rfl rfl).1 (by decide) (Or.inl rfl)
  · exact (nonMarkdown_ack_on_lookup_failure sampleEnv sampleWorldEmpty sampleKey
      "site1" "main" "articles/test.md" rfl rfl).2 (by decide) (by decide) (Or.inl rfl)

end Flowershow
